import Mathlib

/-!
Verification of the file-parsing / analysis-result pipeline of the
Financial-Report-Analyzer repository.

The development shallowly embeds the TypeScript sources:

* `GeminiAnalysisService.parseAnalysisResponse` and
  `GeminiAnalysisService.validateContent` from `src/lib/gemini.ts`;
* `FileParsingService.parseCSV` and the `DashboardService`
  (`generateDashboard`, `generateChartData`, `generateInsights`,
  `extractNumericValue`, `extractPercentageValue`).

JavaScript runtime values flowing out of `JSON.parse` are modelled by the
inductive type `Json` (JavaScript is untyped at runtime, so normalized
analysis fields hold arbitrary JSON values, not necessarily strings).
JavaScript numbers are modelled by `ℚ`; the inputs dealt with here are
short decimal literals, for which rational arithmetic agrees with IEEE
semantics on every comparison performed by the code.  `parseFloat` is
modelled by `jsParseFloat` on its decimal-literal fragment (the `Infinity`
literal, not representable in `ℚ` and never produced by the pipeline, is
not modelled).  Strings are modelled as `String` / `List Char`.
-/

set_option maxRecDepth 10000

/-- The character `\x7b` (left curly brace), written via its code point. -/
def lbrace : Char := Char.ofNat 123

/-- The character `\x7d` (right curly brace), written via its code point. -/
def rbrace : Char := Char.ofNat 125

/-- JavaScript runtime values produced by `JSON.parse`. -/
inductive Json where
  | null : Json
  | bool (b : Bool) : Json
  | num (q : ℚ) : Json
  | str (s : String) : Json
  | arr (elems : List Json) : Json
  | obj (members : List (String × Json)) : Json

/-- JSON grammar whitespace (space, tab, line feed, carriage return). -/
def jsonWs (c : Char) : Bool :=
  c = ' ' || c = '\t' || c = '\n' || c = '\r'

/-- Drop leading JSON whitespace. -/
def skipWs (cs : List Char) : List Char := cs.dropWhile jsonWs

/-- Decode a single-character JSON escape (after the backslash). -/
def escChar (c : Char) : Option Char :=
  if c = '"' then some '"'
  else if c = '\\' then some '\\'
  else if c = '/' then some '/'
  else if c = 'b' then some (Char.ofNat 8)
  else if c = 'f' then some (Char.ofNat 12)
  else if c = 'n' then some '\n'
  else if c = 'r' then some '\r'
  else if c = 't' then some '\t'
  else none

/-- Value of a hexadecimal digit, if the character is one. -/
def hexVal (c : Char) : Option Nat :=
  if '0' ≤ c ∧ c ≤ '9' then some (c.toNat - 48)
  else if 'a' ≤ c ∧ c ≤ 'f' then some (c.toNat - 87)
  else if 'A' ≤ c ∧ c ≤ 'F' then some (c.toNat - 55)
  else none

/-- Parse the body of a JSON string (the opening quote already consumed),
returning the decoded characters and the remaining input. -/
def parseStringBody (fuel : Nat) (cs : List Char) : Option (List Char × List Char) :=
  match fuel with
  | 0 => none
  | fuel + 1 =>
    match cs with
    | [] => none
    | c :: rest =>
      if c = '"' then some ([], rest)
      else if c = '\\' then
        match rest with
        | [] => none
        | e :: rest2 =>
          if e = 'u' then
            match rest2 with
            | a :: b :: c2 :: d :: rest3 =>
              match hexVal a, hexVal b, hexVal c2, hexVal d with
              | some va, some vb, some vc, some vd =>
                match parseStringBody fuel rest3 with
                | some (tail, rem) =>
                  some (Char.ofNat (((va * 16 + vb) * 16 + vc) * 16 + vd) :: tail, rem)
                | none => none
              | _, _, _, _ => none
            | _ => none
          else
            match escChar e with
            | some ec =>
              match parseStringBody fuel rest2 with
              | some (tail, rem) => some (ec :: tail, rem)
              | none => none
            | none => none
      else if c.toNat < 32 then none
      else
        match parseStringBody fuel rest with
        | some (tail, rem) => some (c :: tail, rem)
        | none => none

/-- Numeric value of a (already validated) list of decimal digit characters. -/
def digitsVal (ds : List Char) : Nat :=
  ds.foldl (fun n c => 10 * n + (c.toNat - 48)) 0

/-- Parse a JSON number literal prefix, returning its value and the rest. -/
def parseJsonNumber (cs : List Char) : Option (ℚ × List Char) :=
  let (neg, cs1) :=
    match cs with
    | '-' :: r => (true, r)
    | _ => (false, cs)
  let ip := cs1.takeWhile Char.isDigit
  let rest1 := cs1.dropWhile Char.isDigit
  if ip.isEmpty then none
  else if 2 ≤ ip.length ∧ ip.headD '0' = '0' then none
  else
    let (fracQ, rest2) :=
      match rest1 with
      | '.' :: r2 =>
        let fp := r2.takeWhile Char.isDigit
        if fp.isEmpty then ((none : Option ℚ), rest1)
        else (some ((digitsVal fp : ℚ) / (10 : ℚ) ^ fp.length), r2.dropWhile Char.isDigit)
      | _ => (none, rest1)
    match fracQ, rest2 with
    | none, '.' :: _ => none
    | _, _ =>
      let base : ℚ := (digitsVal ip : ℚ) + (fracQ.getD 0)
      let (expVal, rest3) :=
        match rest2 with
        | e :: r3 =>
          if e = 'e' ∨ e = 'E' then
            let (esign, r4) :=
              match r3 with
              | '+' :: r5 => ((1 : ℤ), r5)
              | '-' :: r5 => ((-1 : ℤ), r5)
              | _ => ((1 : ℤ), r3)
            let eds := r4.takeWhile Char.isDigit
            if eds.isEmpty then ((none : Option ℤ), rest2)
            else (some (esign * (digitsVal eds : ℤ)), r4.dropWhile Char.isDigit)
          else (none, rest2)
        | _ => (none, rest2)
      match expVal with
      | none =>
        match rest2 with
        | e :: _ => if e = 'e' ∨ e = 'E' then none else some (if neg then -base else base, rest2)
        | _ => some (if neg then -base else base, rest2)
      | some ev => some ((if neg then -base else base) * (10 : ℚ) ^ ev, rest3)

/-- Check that `pre` literally prefixes `cs`; return the remainder. -/
def expectLit : List Char → List Char → Option (List Char)
  | [], cs => some cs
  | p :: ps, c :: cs => if c = p then expectLit ps cs else none
  | _ :: _, [] => none

mutual

/-- Parse one JSON value (leading whitespace allowed), returning the value
and the remaining input.  `fuel` bounds the recursion depth. -/
def parseVal (fuel : Nat) (cs : List Char) : Option (Json × List Char) :=
  match fuel with
  | 0 => none
  | fuel + 1 =>
    match skipWs cs with
    | [] => none
    | c :: rest =>
      if c = lbrace then
        match skipWs rest with
        | c2 :: rest2 =>
          if c2 = rbrace then some (Json.obj [], rest2)
          else
            match parseMembers fuel (c2 :: rest2) with
            | some (ms, rest3) => some (Json.obj ms, rest3)
            | none => none
        | [] => none
      else if c = '[' then
        match skipWs rest with
        | c2 :: rest2 =>
          if c2 = ']' then some (Json.arr [], rest2)
          else
            match parseElems fuel (c2 :: rest2) with
            | some (xs, rest3) => some (Json.arr xs, rest3)
            | none => none
        | [] => none
      else if c = '"' then
        match parseStringBody (rest.length + 1) rest with
        | some (sChars, rem) => some (Json.str (String.mk sChars), rem)
        | none => none
      else if c = 't' then
        match expectLit ['r', 'u', 'e'] rest with
        | some rem => some (Json.bool true, rem)
        | none => none
      else if c = 'f' then
        match expectLit ['a', 'l', 's', 'e'] rest with
        | some rem => some (Json.bool false, rem)
        | none => none
      else if c = 'n' then
        match expectLit ['u', 'l', 'l'] rest with
        | some rem => some (Json.null, rem)
        | none => none
      else
        match parseJsonNumber (c :: rest) with
        | some (q, rem) => some (Json.num q, rem)
        | none => none

/-- Parse a non-empty comma-separated list of array elements, up to and
including the closing bracket. -/
def parseElems (fuel : Nat) (cs : List Char) : Option (List Json × List Char) :=
  match fuel with
  | 0 => none
  | fuel + 1 =>
    match parseVal fuel cs with
    | none => none
    | some (v, rest) =>
      match skipWs rest with
      | c :: rest2 =>
        if c = ',' then
          match parseElems fuel rest2 with
          | some (xs, rest3) => some (v :: xs, rest3)
          | none => none
        else if c = ']' then some ([v], rest2)
        else none
      | [] => none

/-- Parse a non-empty comma-separated list of object members, up to and
including the closing brace. -/
def parseMembers (fuel : Nat) (cs : List Char) :
    Option (List (String × Json) × List Char) :=
  match fuel with
  | 0 => none
  | fuel + 1 =>
    match skipWs cs with
    | c :: rest =>
      if c = '"' then
        match parseStringBody (rest.length + 1) rest with
        | some (kChars, rem) =>
          match skipWs rem with
          | c2 :: rest2 =>
            if c2 = ':' then
              match parseVal fuel rest2 with
              | some (v, rest3) =>
                match skipWs rest3 with
                | c3 :: rest4 =>
                  if c3 = ',' then
                    match parseMembers fuel rest4 with
                    | some (ms, rest5) => some ((String.mk kChars, v) :: ms, rest5)
                    | none => none
                  else if c3 = rbrace then some ([(String.mk kChars, v)], rest4)
                  else none
                | [] => none
              | none => none
            else none
          | [] => none
        | none => none
      else none
    | [] => none

end

/-- Embedding of `JSON.parse`: the whole input (up to surrounding JSON
whitespace) must be one JSON value. -/
def jsonParse (cs : List Char) : Option Json :=
  match parseVal (2 * cs.length + 16) cs with
  | some (v, rest) => if (skipWs rest).isEmpty then some v else none
  | none => none

/-! ## Normalization of the parsed model response (`gemini.ts`) -/

/-- JavaScript truthiness of a JSON runtime value. -/
def truthy : Json → Bool
  | Json.null => false
  | Json.bool b => b
  | Json.num q => decide (q ≠ 0)
  | Json.str s => decide (s ≠ "")
  | Json.arr _ => true
  | Json.obj _ => true

/-- Member lookup in a parsed JSON object: `JSON.parse` lets the last
duplicate key win, so the last matching member is taken. -/
def lookupMem (ms : List (String × Json)) (k : String) : Option Json :=
  ((ms.filter (fun m => m.1 = k)).getLast?).map (fun m => m.2)

/-- JavaScript property access `j.k` for the values reachable here
(`undefined` on non-objects, matching member otherwise). -/
def getMember (j : Json) (k : String) : Option Json :=
  match j with
  | Json.obj ms => lookupMem ms k
  | _ => none

/-- `parsed.kpis?.k` — optional chaining through the `kpis` member. -/
def getKpi (parsed : Json) (k : String) : Option Json :=
  (getMember parsed "kpis").bind (fun kj => getMember kj k)

/-- JavaScript `v || dflt` with a string default, over a possibly-absent
(`undefined`) value: the value itself when truthy, the default otherwise. -/
def jsOrStr (v : Option Json) (dflt : String) : Json :=
  match v with
  | some x => if truthy x then x else Json.str dflt
  | none => Json.str dflt

/-- `Array.isArray(v) ? v : []` over a possibly-absent value. -/
def asArray (v : Option Json) : List Json :=
  match v with
  | some (Json.arr xs) => xs
  | _ => []

/-- The 10 KPI fields of the normalized analysis, as JavaScript runtime
values.  The source's `debtToEquityRatio` field is named `debtToEquity`
here; all other field names are kept. -/
structure KPIsJ where
  revenue : Json
  expenses : Json
  netProfit : Json
  growthRate : Json
  totalAssets : Json
  totalLiabilities : Json
  cashFlow : Json
  debtToEquity : Json
  returnOnInvestment : Json
  profitMargin : Json

/-- The `AnalysisResult` produced by `parseAnalysisResponse`, as
JavaScript runtime values. -/
structure AnalysisResultJ where
  summary : Json
  kpis : KPIsJ
  risks : List Json
  opportunities : List Json
  recommendations : List Json

/-- The normalization step of `parseAnalysisResponse` (the object literal
built after `JSON.parse` succeeds). -/
def normalizeParsed (parsed : Json) : AnalysisResultJ :=
  { summary := jsOrStr (getMember parsed "summary") "Analysis summary not available"
    kpis :=
      { revenue := jsOrStr (getKpi parsed "revenue") "N/A"
        expenses := jsOrStr (getKpi parsed "expenses") "N/A"
        netProfit := jsOrStr (getKpi parsed "netProfit") "N/A"
        growthRate := jsOrStr (getKpi parsed "growthRate") "N/A"
        totalAssets := jsOrStr (getKpi parsed "totalAssets") "N/A"
        totalLiabilities := jsOrStr (getKpi parsed "totalLiabilities") "N/A"
        cashFlow := jsOrStr (getKpi parsed "cashFlow") "N/A"
        debtToEquity := jsOrStr (getKpi parsed "debtToEquityRatio") "N/A"
        returnOnInvestment := jsOrStr (getKpi parsed "returnOnInvestment") "N/A"
        profitMargin := jsOrStr (getKpi parsed "profitMargin") "N/A" }
    risks := asArray (getMember parsed "risks")
    opportunities := asArray (getMember parsed "opportunities")
    recommendations := asArray (getMember parsed "recommendations") }

/-- The fixed fallback `AnalysisResult` returned by the `catch` branch of
`parseAnalysisResponse`. -/
def fallbackAnalysisResult : AnalysisResultJ :=
  { summary := Json.str "Unable to generate detailed analysis. Please try again or contact support."
    kpis :=
      { revenue := Json.str "N/A"
        expenses := Json.str "N/A"
        netProfit := Json.str "N/A"
        growthRate := Json.str "N/A"
        totalAssets := Json.str "N/A"
        totalLiabilities := Json.str "N/A"
        cashFlow := Json.str "N/A"
        debtToEquity := Json.str "N/A"
        returnOnInvestment := Json.str "N/A"
        profitMargin := Json.str "N/A" }
    risks := [Json.str "Analysis unavailable - please review the report manually"]
    opportunities := [Json.str "Analysis unavailable - please review the report manually"]
    recommendations := [Json.str "Analysis unavailable - please review the report manually"] }

/-- Embedding of the regex match `text.match(/\x7b[\s\S]*\x7d/)`: the
substring from the first left brace through the last right brace, when the
latter lies strictly after the former. -/
def jsonMatch (cs : List Char) : Option (List Char) :=
  match cs.dropWhile (fun c => c != lbrace) with
  | [] => none
  | c :: rest =>
    match (c :: rest).reverse.dropWhile (fun c => c != rbrace) with
    | [] => none
    | d :: rest2 => some (d :: rest2).reverse

/-- Embedding of `GeminiAnalysisService.parseAnalysisResponse`
(`src/lib/gemini.ts`): extract the brace-delimited substring, `JSON.parse`
it, normalize; any failure yields the fixed fallback result. -/
def parseAnalysisResponse (text : List Char) : AnalysisResultJ :=
  match jsonMatch text with
  | none => fallbackAnalysisResult
  | some js =>
    match jsonParse js with
    | none => fallbackAnalysisResult
    | some parsed => normalizeParsed parsed

/-! ## Content validation (`gemini.ts`) -/

/-- The whitespace class of JavaScript's `String.prototype.trim` and of
the regex class `\s`. -/
def jsWhitespace (c : Char) : Bool :=
  c.toNat = 32 || c.toNat = 9 || c.toNat = 10 || c.toNat = 11 || c.toNat = 12 ||
  c.toNat = 13 ||
  c.toNat = 160 || c.toNat = 0x1680 || (0x2000 ≤ c.toNat && c.toNat ≤ 0x200a) ||
  c.toNat = 0x2028 || c.toNat = 0x2029 || c.toNat = 0x202f || c.toNat = 0x205f ||
  c.toNat = 0x3000 || c.toNat = 0xfeff

/-- JavaScript `String.prototype.trim`: strip leading and trailing
whitespace. -/
def trimJs (cs : List Char) : List Char :=
  ((cs.dropWhile jsWhitespace).reverse.dropWhile jsWhitespace).reverse

/-- Result of `GeminiAnalysisService.validateContent`: either valid, or
invalid with the error message the source attaches. -/
inductive ContentValidation where
  | valid : ContentValidation
  | invalid (msg : String) : ContentValidation
deriving DecidableEq

/-- The validation failure the spec calls `EmptyContentError`. -/
def emptyContentError : ContentValidation :=
  ContentValidation.invalid "Content is empty"

/-- The validation failure the spec calls `ContentTooShortError`. -/
def contentTooShortError : ContentValidation :=
  ContentValidation.invalid "Content too short for meaningful analysis"

/-- The validation failure the spec calls `ContentTooLongError`. -/
def contentTooLongError : ContentValidation :=
  ContentValidation.invalid "Content too long - please upload a smaller file"

/-- Embedding of `GeminiAnalysisService.validateContent`
(`src/lib/gemini.ts`). -/
def validateContent (content : List Char) : ContentValidation :=
  if content.isEmpty || (trimJs content).length = 0 then emptyContentError
  else if content.length < 100 then contentTooShortError
  else if content.length > 100000 then contentTooLongError
  else ContentValidation.valid

/-! ## Lemmas about trimming -/

/-- `trimJs` yields the empty list exactly on whitespace-only input. -/
theorem trimJs_eq_nil_iff (cs : List Char) :
    trimJs cs = [] ↔ ∀ c ∈ cs, jsWhitespace c := by
  unfold trimJs
  rw [List.reverse_eq_nil_iff, List.dropWhile_eq_nil_iff]
  constructor
  · intro h c hc
    have hsplit := List.takeWhile_append_dropWhile jsWhitespace cs
    rw [← hsplit] at hc
    rcases List.mem_append.mp hc with htk | hdr
    · exact List.mem_takeWhile_imp htk
    · exact h c (List.mem_reverse.mpr hdr)
  · intro h c hc
    exact h c ((List.dropWhile_sublist jsWhitespace).mem (List.mem_reverse.mp hc))

/-- If every character of the input is whitespace, validation fails with
the empty-content error. -/
theorem validateContent_of_allWs (cs : List Char)
    (h : cs.all jsWhitespace = true) : validateContent cs = emptyContentError := by
  have htrim : trimJs cs = [] := (trimJs_eq_nil_iff cs).mpr (by simpa [List.all_eq_true] using h)
  unfold validateContent
  rw [htrim]
  simp

/-- If some character is not whitespace, the first branch of
`validateContent` is not taken. -/
theorem validateContent_of_notWs (cs : List Char)
    (h : cs.all jsWhitespace = false) :
    validateContent cs =
      (if cs.length < 100 then contentTooShortError
       else if cs.length > 100000 then contentTooLongError
       else ContentValidation.valid) := by
  have htrim : trimJs cs ≠ [] := by
    intro hnil
    have := (trimJs_eq_nil_iff cs).mp hnil
    rw [← List.all_eq_true (p := jsWhitespace)] at this
    rw [h] at this
    exact Bool.false_ne_true this
  have hne : cs ≠ [] := by
    intro hnil; subst hnil; simp [List.all_nil] at h
  have h1 : cs.isEmpty = false := by simp [List.isEmpty_iff, hne]
  unfold validateContent
  simp [h1, List.length_eq_zero, htrim]

/-- A nonempty run of `'x'` characters is not whitespace-only. -/
theorem allWs_replicate_x (n : Nat) (h : n ≠ 0) :
    (List.replicate n 'x').all jsWhitespace = false := by
  obtain ⟨m, rfl⟩ := Nat.exists_eq_succ_of_ne_zero h
  rw [List.replicate_succ, List.all_cons]
  have hx : jsWhitespace 'x' = false := by decide
  rw [hx, Bool.false_and]

/-- C3 (counterexample): a whitespace-only string of length 100001 has
length strictly greater than 100000, yet the validator reports the
empty-content error, not the too-long error — the whitespace-only check
runs first, so the claim's too-long clause fails on this input. -/
theorem validateContent_overlong_ws_counterexample :
    100000 < (List.replicate 100001 ' ').length ∧
    validateContent (List.replicate 100001 ' ') = emptyContentError ∧
    emptyContentError ≠ contentTooLongError := by
  refine ⟨by rw [List.length_replicate]; norm_num, ?_, by decide⟩
  apply validateContent_of_allWs
  rw [List.all_eq_true]
  intro c hc
  rw [List.eq_of_mem_replicate hc]
  decide

/-- C3 (amended): the validator fails with the empty-content error exactly
on whitespace-only (including empty) input; on input containing a
non-whitespace character it fails with the too-short error when the length
is below 100, succeeds when the length is between 100 and 100000, and
fails with the too-long error when the length exceeds 100000. -/
theorem validateContent_cases (cs : List Char) :
    (cs.all jsWhitespace = true → validateContent cs = emptyContentError) ∧
    (cs.all jsWhitespace = false → cs.length < 100 →
      validateContent cs = contentTooShortError) ∧
    (cs.all jsWhitespace = false → 100 ≤ cs.length → cs.length ≤ 100000 →
      validateContent cs = ContentValidation.valid) ∧
    (cs.all jsWhitespace = false → 100000 < cs.length →
      validateContent cs = contentTooLongError) := by
  refine ⟨validateContent_of_allWs cs, ?_, ?_, ?_⟩
  · intro h hlt
    rw [validateContent_of_notWs cs h, if_pos hlt]
  · intro h hge hle
    rw [validateContent_of_notWs cs h, if_neg (by omega), if_neg (by omega)]
  · intro h hgt
    rw [validateContent_of_notWs cs h, if_neg (by omega), if_pos (by omega)]

/-- C3 (witness): concrete runs of the amended validator cases. -/
theorem validateContent_cases_witness :
    validateContent (List.replicate 100 'x') = ContentValidation.valid ∧
    validateContent (List.replicate 99 'x') = contentTooShortError ∧
    validateContent [' ', ' ', ' '] = emptyContentError := by
  refine ⟨?_, ?_, ?_⟩
  · exact (validateContent_cases (List.replicate 100 'x')).2.2.1
      (allWs_replicate_x 100 (by norm_num))
      (by rw [List.length_replicate]) (by rw [List.length_replicate]; norm_num)
  · exact (validateContent_cases (List.replicate 99 'x')).2.1
      (allWs_replicate_x 99 (by norm_num)) (by rw [List.length_replicate]; norm_num)
  · exact (validateContent_cases [' ', ' ', ' ']).1 (by decide)

/-- If brace extraction or JSON parsing fails, the response parser yields
the fallback result. -/
theorem parse_fallback_of_failure (text : List Char)
    (h : jsonMatch text = none ∨
         ∃ js, jsonMatch text = some js ∧ jsonParse js = none) :
    parseAnalysisResponse text = fallbackAnalysisResult := by
  unfold parseAnalysisResponse
  rcases h with hnone | ⟨js, hsome, hparse⟩
  · rw [hnone]
  · rw [hsome]
    simp only []
    rw [hparse]

/-- C1: the response parser is total by construction, and whenever no
brace-delimited substring is found in the raw model response, or the
extracted substring fails to parse as JSON, it returns the fixed fallback
result: the apology summary, all 10 KPI fields `"N/A"`, and each of the
three lists a single fixed advisory string. -/
theorem parseAnalysisResponse_fallback (text : List Char)
    (h : jsonMatch text = none ∨
         ∃ js, jsonMatch text = some js ∧ jsonParse js = none) :
    parseAnalysisResponse text = fallbackAnalysisResult ∧
    (parseAnalysisResponse text).summary =
      Json.str "Unable to generate detailed analysis. Please try again or contact support." ∧
    (parseAnalysisResponse text).kpis.revenue = Json.str "N/A" ∧
    (parseAnalysisResponse text).kpis.expenses = Json.str "N/A" ∧
    (parseAnalysisResponse text).kpis.netProfit = Json.str "N/A" ∧
    (parseAnalysisResponse text).kpis.growthRate = Json.str "N/A" ∧
    (parseAnalysisResponse text).kpis.totalAssets = Json.str "N/A" ∧
    (parseAnalysisResponse text).kpis.totalLiabilities = Json.str "N/A" ∧
    (parseAnalysisResponse text).kpis.cashFlow = Json.str "N/A" ∧
    (parseAnalysisResponse text).kpis.debtToEquity = Json.str "N/A" ∧
    (parseAnalysisResponse text).kpis.returnOnInvestment = Json.str "N/A" ∧
    (parseAnalysisResponse text).kpis.profitMargin = Json.str "N/A" ∧
    (parseAnalysisResponse text).risks =
      [Json.str "Analysis unavailable - please review the report manually"] ∧
    (parseAnalysisResponse text).opportunities =
      [Json.str "Analysis unavailable - please review the report manually"] ∧
    (parseAnalysisResponse text).recommendations =
      [Json.str "Analysis unavailable - please review the report manually"] := by
  rw [parse_fallback_of_failure text h]
  exact ⟨rfl, rfl, rfl, rfl, rfl, rfl, rfl, rfl, rfl, rfl, rfl, rfl, rfl, rfl, rfl⟩

/-- C1 (witness): a concrete brace-free model response takes the fallback
branch. -/
theorem parseAnalysisResponse_fallback_witness :
    parseAnalysisResponse ("The model refused to answer.".data) =
      fallbackAnalysisResult :=
  (parseAnalysisResponse_fallback ("The model refused to answer.".data)
    (Or.inl (by decide))).1

/-- Is this JSON value a string? -/
def isStrJson : Json → Bool
  | Json.str _ => true
  | _ => false

/-- Is this possibly-absent value an array? -/
def isArrayV : Option Json → Bool
  | some (Json.arr _) => true
  | _ => false

/-- `jsOrStr` with a non-empty default always yields a truthy value. -/
theorem truthy_jsOrStr (v : Option Json) (d : String) (hd : d ≠ "") :
    truthy (jsOrStr v d) = true := by
  cases v with
  | none =>
    show truthy (Json.str d) = true
    simp [truthy, hd]
  | some x =>
    show truthy (if truthy x = true then x else Json.str d) = true
    by_cases hx : truthy x = true
    · simp [hx]
    · rw [Bool.not_eq_true] at hx
      rw [if_neg (by rw [hx]; exact Bool.false_ne_true)]
      simp [truthy, hd]

/-- A possibly-absent value that is not an array collapses to the empty
list under `asArray`. -/
theorem asArray_of_not_array (v : Option Json) (h : isArrayV v = false) :
    asArray v = [] := by
  unfold asArray
  cases v with
  | none => rfl
  | some x => cases x <;> first | rfl | exact absurd h (by simp [isArrayV])

/-- Every normalized field of an `AnalysisResultJ` is truthy. -/
def allFieldsTruthy (r : AnalysisResultJ) : Bool :=
  truthy r.summary && truthy r.kpis.revenue && truthy r.kpis.expenses &&
  truthy r.kpis.netProfit && truthy r.kpis.growthRate &&
  truthy r.kpis.totalAssets && truthy r.kpis.totalLiabilities &&
  truthy r.kpis.cashFlow && truthy r.kpis.debtToEquity &&
  truthy r.kpis.returnOnInvestment && truthy r.kpis.profitMargin

/-- Normalization yields truthy fields throughout. -/
theorem allFieldsTruthy_normalize (parsed : Json) :
    allFieldsTruthy (normalizeParsed parsed) = true := by
  unfold allFieldsTruthy normalizeParsed
  simp only []
  rw [truthy_jsOrStr _ _ (by decide), truthy_jsOrStr _ _ (by decide),
    truthy_jsOrStr _ _ (by decide), truthy_jsOrStr _ _ (by decide),
    truthy_jsOrStr _ _ (by decide), truthy_jsOrStr _ _ (by decide),
    truthy_jsOrStr _ _ (by decide), truthy_jsOrStr _ _ (by decide),
    truthy_jsOrStr _ _ (by decide), truthy_jsOrStr _ _ (by decide),
    truthy_jsOrStr _ _ (by decide)]
  rfl

/-- On a successful extract-and-parse, the response parser is exactly the
normalization step. -/
theorem parseAnalysisResponse_eq_normalize (text js : List Char) (parsed : Json)
    (h1 : jsonMatch text = some js) (h2 : jsonParse js = some parsed) :
    parseAnalysisResponse text = normalizeParsed parsed := by
  unfold parseAnalysisResponse
  rw [h1]
  simp only []
  rw [h2]

/-- C2 (counterexample): a model response supplying the `revenue` KPI as
the JSON number `123` yields an `AnalysisResult` whose `revenue` field is
the number `123`, not a string — the normalization passes truthy
non-string values through unchanged. -/
theorem parseAnalysisResponse_nonstring_kpi_counterexample :
    (parseAnalysisResponse ("\x7b\"kpis\":\x7b\"revenue\":123\x7d\x7d".data)).kpis.revenue
      = Json.num 123 ∧
    isStrJson
      (parseAnalysisResponse ("\x7b\"kpis\":\x7b\"revenue\":123\x7d\x7d".data)).kpis.revenue
      = false := by
  constructor
  · with_unfolding_all rfl
  · with_unfolding_all rfl

/-- The fallback result also has truthy fields throughout. -/
theorem allFieldsTruthy_fallback : allFieldsTruthy fallbackAnalysisResult = true := by
  with_unfolding_all rfl

/-- C2 (amended): for every raw model response string, the produced
`AnalysisResult` has the summary and all 10 KPI fields present and truthy
(never `undefined` or `null`; a KPI the model supplies as a truthy
non-string value is passed through unchanged rather than stringified); a
KPI field absent from the model output is defaulted to `"N/A"`, and
`risks`, `opportunities` and `recommendations` are always lists,
defaulting to the empty list when absent or not array-valued. -/
theorem parseAnalysisResponse_field_defaults (text : List Char) :
    allFieldsTruthy (parseAnalysisResponse text) = true ∧
    (∀ js parsed, jsonMatch text = some js → jsonParse js = some parsed →
      (getKpi parsed "revenue" = none →
        (parseAnalysisResponse text).kpis.revenue = Json.str "N/A") ∧
      (getKpi parsed "expenses" = none →
        (parseAnalysisResponse text).kpis.expenses = Json.str "N/A") ∧
      (getKpi parsed "netProfit" = none →
        (parseAnalysisResponse text).kpis.netProfit = Json.str "N/A") ∧
      (getKpi parsed "growthRate" = none →
        (parseAnalysisResponse text).kpis.growthRate = Json.str "N/A") ∧
      (getKpi parsed "totalAssets" = none →
        (parseAnalysisResponse text).kpis.totalAssets = Json.str "N/A") ∧
      (getKpi parsed "totalLiabilities" = none →
        (parseAnalysisResponse text).kpis.totalLiabilities = Json.str "N/A") ∧
      (getKpi parsed "cashFlow" = none →
        (parseAnalysisResponse text).kpis.cashFlow = Json.str "N/A") ∧
      (getKpi parsed "debtToEquityRatio" = none →
        (parseAnalysisResponse text).kpis.debtToEquity = Json.str "N/A") ∧
      (getKpi parsed "returnOnInvestment" = none →
        (parseAnalysisResponse text).kpis.returnOnInvestment = Json.str "N/A") ∧
      (getKpi parsed "profitMargin" = none →
        (parseAnalysisResponse text).kpis.profitMargin = Json.str "N/A") ∧
      (isArrayV (getMember parsed "risks") = false →
        (parseAnalysisResponse text).risks = []) ∧
      (isArrayV (getMember parsed "opportunities") = false →
        (parseAnalysisResponse text).opportunities = []) ∧
      (isArrayV (getMember parsed "recommendations") = false →
        (parseAnalysisResponse text).recommendations = [])) := by
  constructor
  · rcases hm : jsonMatch text with _ | js
    · rw [parse_fallback_of_failure text (Or.inl hm)]
      exact allFieldsTruthy_fallback
    · rcases hp : jsonParse js with _ | parsed
      · rw [parse_fallback_of_failure text (Or.inr ⟨js, hm, hp⟩)]
        exact allFieldsTruthy_fallback
      · rw [parseAnalysisResponse_eq_normalize text js parsed hm hp]
        exact allFieldsTruthy_normalize parsed
  · intro js parsed hm hp
    rw [parseAnalysisResponse_eq_normalize text js parsed hm hp]
    refine ⟨?_, ?_, ?_, ?_, ?_, ?_, ?_, ?_, ?_, ?_, ?_, ?_, ?_⟩ <;> intro h <;>
      simp only [normalizeParsed] <;>
      first
        | (rw [h]; rfl)
        | exact asArray_of_not_array _ h

/-- C2 (witness): a response whose JSON object carries none of the
analysis fields gets `"N/A"` KPIs and empty lists. -/
theorem parseAnalysisResponse_field_defaults_witness :
    (parseAnalysisResponse ("\x7b\"a\":1\x7d".data)).kpis.revenue = Json.str "N/A" ∧
    (parseAnalysisResponse ("\x7b\"a\":1\x7d".data)).risks = [] := by
  have h := parseAnalysisResponse_field_defaults ("\x7b\"a\":1\x7d".data)
  have h2 := h.2 ("\x7b\"a\":1\x7d".data) (Json.obj [("a", Json.num 1)])
      (by with_unfolding_all rfl) (by with_unfolding_all rfl)
  exact ⟨h2.1 (by with_unfolding_all rfl),
    h2.2.2.2.2.2.2.2.2.2.2.1 (by with_unfolding_all rfl)⟩

/-! ## The regex extraction on a well-bracketed response -/

/-- Dropping over a prefix all of whose elements satisfy the predicate. -/
theorem dropWhile_append_of_all {α : Type} (p : α → Bool) (l₁ l₂ : List α)
    (h : ∀ c ∈ l₁, p c = true) :
    (l₁ ++ l₂).dropWhile p = l₂.dropWhile p := by
  induction l₁ with
  | nil => rfl
  | cons a l ih =>
    rw [List.cons_append, List.dropWhile_cons_of_pos (h a (by simp))]
    exact ih (fun c hc => h c (by simp [hc]))

/-- The brace-extraction regex on a response consisting of a brace-free
prefix, a brace-delimited JSON body, and a right-brace-free suffix
returns exactly the body. -/
theorem jsonMatch_embed (p mid s : List Char)
    (hp : ∀ c ∈ p, (c != lbrace) = true) (hs : ∀ c ∈ s, (c != rbrace) = true) :
    jsonMatch (p ++ (lbrace :: mid ++ [rbrace]) ++ s) =
      some (lbrace :: mid ++ [rbrace]) := by
  have h1 : (p ++ (lbrace :: mid ++ [rbrace]) ++ s).dropWhile (fun c => c != lbrace)
      = lbrace :: (mid ++ [rbrace] ++ s) := by
    rw [List.append_assoc, dropWhile_append_of_all _ p _ hp,
      show (lbrace :: mid ++ [rbrace]) ++ s = lbrace :: (mid ++ [rbrace] ++ s) from by simp,
      List.dropWhile_cons_of_neg (by rw [bne_self_eq_false]; exact Bool.false_ne_true)]
  have h2 : (lbrace :: (mid ++ [rbrace] ++ s)).reverse.dropWhile (fun c => c != rbrace)
      = rbrace :: (mid.reverse ++ [lbrace]) := by
    have hrev : (lbrace :: (mid ++ [rbrace] ++ s)).reverse
        = s.reverse ++ (rbrace :: (mid.reverse ++ [lbrace])) := by
      simp
    rw [hrev, dropWhile_append_of_all _ s.reverse _
        (fun c hc => hs c (List.mem_reverse.mp hc)),
      List.dropWhile_cons_of_neg (by rw [bne_self_eq_false]; exact Bool.false_ne_true)]
  unfold jsonMatch
  rw [h1]
  simp only []
  rw [h2]
  simp

/-- The round-trip model response body: a JSON object with summary `"S"`,
all 10 KPI fields supplied, `risks=["a"]`, `opportunities=[]`,
`recommendations=["b"]`. -/
def rtJson : String :=
  "\x7b\"summary\":\"S\",\"kpis\":\x7b\"revenue\":\"$1M\",\"expenses\":\"$2M\",\"netProfit\":\"$3M\",\"growthRate\":\"5%\",\"totalAssets\":\"$10M\",\"totalLiabilities\":\"$4M\",\"cashFlow\":\"$1M\",\"debtToEquityRatio\":\"0.5\",\"returnOnInvestment\":\"12%\",\"profitMargin\":\"25%\"\x7d,\"risks\":[\"a\"],\"opportunities\":[],\"recommendations\":[\"b\"]\x7d"

/-- The interior of `rtJson` (everything between the outer braces). -/
def rtJsonMid : List Char := (rtJson.data.drop 1).dropLast

/-- The `AnalysisResult` the round-trip response should normalize to. -/
def rtExpected : AnalysisResultJ :=
  { summary := Json.str "S"
    kpis :=
      { revenue := Json.str "$1M"
        expenses := Json.str "$2M"
        netProfit := Json.str "$3M"
        growthRate := Json.str "5%"
        totalAssets := Json.str "$10M"
        totalLiabilities := Json.str "$4M"
        cashFlow := Json.str "$1M"
        debtToEquity := Json.str "0.5"
        returnOnInvestment := Json.str "12%"
        profitMargin := Json.str "25%" }
    risks := [Json.str "a"]
    opportunities := []
    recommendations := [Json.str "b"] }

/-- C5: round-trip — embedding the syntactically valid JSON object with
summary `"S"`, all 10 KPI fields, `risks=["a"]`, `opportunities=[]`,
`recommendations=["b"]` in any response whose preceding text has no left
brace and whose following text has no right brace, the parser returns
exactly that data: summary and every KPI value verbatim, the supplied
lists kept as given (the empty `opportunities` list is preserved, not
defaulted). -/
theorem parseAnalysisResponse_roundtrip (p s : List Char)
    (hp : ∀ c ∈ p, (c != lbrace) = true) (hs : ∀ c ∈ s, (c != rbrace) = true) :
    parseAnalysisResponse (p ++ rtJson.data ++ s) = rtExpected ∧
    rtExpected.summary = Json.str "S" ∧
    rtExpected.kpis.revenue = Json.str "$1M" ∧
    rtExpected.risks = [Json.str "a"] ∧
    rtExpected.opportunities = [] ∧
    rtExpected.recommendations = [Json.str "b"] := by
  have hshape : rtJson.data = lbrace :: rtJsonMid ++ [rbrace] := by
    with_unfolding_all rfl
  have hm : jsonMatch (p ++ rtJson.data ++ s) = some rtJson.data := by
    rw [hshape]
    exact jsonMatch_embed p rtJsonMid s hp hs
  refine ⟨?_, rfl, rfl, rfl, rfl, rfl⟩
  unfold parseAnalysisResponse
  rw [hm]
  simp only []
  rw [show jsonParse rtJson.data = some (Json.obj
      [("summary", Json.str "S"),
       ("kpis", Json.obj
         [("revenue", Json.str "$1M"), ("expenses", Json.str "$2M"),
          ("netProfit", Json.str "$3M"), ("growthRate", Json.str "5%"),
          ("totalAssets", Json.str "$10M"), ("totalLiabilities", Json.str "$4M"),
          ("cashFlow", Json.str "$1M"), ("debtToEquityRatio", Json.str "0.5"),
          ("returnOnInvestment", Json.str "12%"), ("profitMargin", Json.str "25%")]),
       ("risks", Json.arr [Json.str "a"]),
       ("opportunities", Json.arr []),
       ("recommendations", Json.arr [Json.str "b"])]) from by with_unfolding_all rfl]
  with_unfolding_all rfl

/-- C5 (witness): the round-trip response wrapped in concrete prose. -/
theorem parseAnalysisResponse_roundtrip_witness :
    parseAnalysisResponse
      ("Sure! Here is the analysis: ".data ++ rtJson.data ++ " Hope this helps.".data)
      = rtExpected :=
  (parseAnalysisResponse_roundtrip "Sure! Here is the analysis: ".data
    " Hope this helps.".data (by decide) (by decide)).1

/-! ## CSV extraction (`FileParsingService.parseCSV`) -/

/-- JavaScript `String.prototype.split` on a single-character separator. -/
def splitOn (sep : Char) : List Char → List (List Char)
  | [] => [[]]
  | c :: rest =>
    match splitOn sep rest with
    | [] => [[]]
    | l :: ls => if c = sep then [] :: l :: ls else (c :: l) :: ls

/-- Embedding of `FileParsingService.parseCSV` (the `extractedText` it
assembles), represented as the list of its text lines in order (each
chunk the source appends is newline-terminated, so the text is exactly
these lines). -/
def parseCSVLines (text : List Char) (fileName : String) : List String :=
  let lines := (splitOn '\n' text).filter (fun l => !(trimJs l).isEmpty)
  let headers :=
    match lines with
    | [] => []
    | h :: _ => (splitOn ',' h).map (fun c => String.mk (trimJs c))
  let banner : List String :=
    ["CSV File: " ++ fileName,
     "Headers: " ++ String.intercalate " | " headers,
     "Total Rows: " ++ toString ((lines.length : Int) - 1),
     ""]
  let maxRows := min 100 lines.length
  let rows := (lines.take maxRows).enum.filterMap (fun ic =>
    if (trimJs ic.2).isEmpty then none
    else some ("Row " ++ toString (ic.1 + 1) ++ ": " ++ String.mk (trimJs ic.2)))
  let trunc : List String :=
    if 100 < lines.length then
      ["", "... and " ++ toString ((lines.length : Int) - 100) ++ " more rows"]
    else []
  banner ++ rows ++ trunc

/-- Number of output lines beginning with `"Row "`. -/
def countRowLines (out : List String) : Nat :=
  (out.filter (fun l => l.startsWith "Row ")).length

/-- C4: the CSV extractor's row loop starts at index 0 of the non-empty
lines, which includes the header line — on a CSV with one header line and
one data row it emits two `"Row k:"` lines, the first of which is the
header, where the claim demands exactly one. -/
theorem parseCSV_header_counted_as_row :
    countRowLines (parseCSVLines "h1,h2\na,b".data "report.csv") = 2 ∧
    List.elem "Row 1: h1,h2" (parseCSVLines "h1,h2\na,b".data "report.csv") = true ∧
    List.elem "Row 2: a,b" (parseCSVLines "h1,h2\na,b".data "report.csv") = true := by
  refine ⟨?_, ?_, ?_⟩ <;> with_unfolding_all rfl

/-! ## Dashboard derivation (`DashboardService`) -/

/-- Embedding of JavaScript `parseFloat` (with `jsParseFloat` below) on
the fragment reachable here: leading whitespace skipped, optional sign,
decimal digits with optional fraction and exponent; the longest valid
prefix is converted and trailing characters are ignored; `none` models
`NaN` (no numeric prefix).  The `Infinity` literal, not representable in
`ℚ`, is not modelled.  This stage: the optional `.digits` fraction part
of the remaining input. -/
def fracSplit (rest1 : List Char) : List Char × List Char :=
  match rest1 with
  | '.' :: r2 => (r2.takeWhile Char.isDigit, r2.dropWhile Char.isDigit)
  | _ => ([], rest1)

/-- The optional exponent stage of `parseFloat`: applied only when an
`e`/`E` followed by at least one digit is present; otherwise the base
value stands (the invalid exponent prefix is trailing junk). -/
def expAdjust (base : ℚ) (rest2 : List Char) : ℚ :=
  match rest2 with
  | e :: r =>
    if e = 'e' ∨ e = 'E' then
      let (sgn, r2) :=
        match r with
        | '+' :: r3 => ((1 : ℤ), r3)
        | '-' :: r3 => ((-1 : ℤ), r3)
        | _ => ((1 : ℤ), r)
      let eds := r2.takeWhile Char.isDigit
      if eds.isEmpty then base else base * (10 : ℚ) ^ (sgn * (digitsVal eds : ℤ))
    else base
  | [] => base

/-- The unsigned body of `parseFloat`: integer digits, then the optional
fraction (`fracSplit`), then the optional exponent (`expAdjust`); `none`
when no digit is found in either position. -/
def parseFloatBody (cs : List Char) : Option ℚ :=
  let ip := cs.takeWhile Char.isDigit
  let rest1 := cs.dropWhile Char.isDigit
  let (fp, rest2) := fracSplit rest1
  if ip.isEmpty && fp.isEmpty then none
  else
    some (expAdjust ((digitsVal ip : ℚ) + (digitsVal fp : ℚ) / (10 : ℚ) ^ fp.length)
      rest2)

/-- JavaScript `parseFloat` (see `parseFloatBody`). -/
def jsParseFloat (cs : List Char) : Option ℚ :=
  match cs.dropWhile jsWhitespace with
  | '-' :: r => (parseFloatBody r).map (fun q => -q)
  | '+' :: r => parseFloatBody r
  | cs1 => parseFloatBody cs1

/-- Embedding of `DashboardService.extractNumericValue`: reject empty and
`"N/A"`, strip the regex class `[$,\s%]`, read parentheses as an
accounting negative, `parseFloat` the rest (`none` models the `NaN`
check returning `null`). -/
def extractNumericValue (value : String) : Option ℚ :=
  if value = "" ∨ value = "N/A" then none
  else
    let cleaned := value.data.filter
      (fun c => !(c == '$' || c == ',' || c == '%' || jsWhitespace c))
    let isNegative := cleaned.contains '(' && cleaned.contains ')'
    let numericString := cleaned.filter (fun c => !(c == '(' || c == ')'))
    match jsParseFloat numericString with
    | none => none
    | some q => some (if isNegative then -q else q)

/-- Embedding of `DashboardService.extractPercentageValue`: reject empty
and `"N/A"`, strip the regex class `[%\s]`, `parseFloat` the rest. -/
def extractPercentageValue (value : String) : Option ℚ :=
  if value = "" ∨ value = "N/A" then none
  else jsParseFloat (value.data.filter (fun c => !(c == '%' || jsWhitespace c)))

/-- Modelled from the spec: `DashboardService.formatCurrency` delegates to
the external `Intl.NumberFormat` compact-currency formatter, which is not
code of this repository; only its use as a display string matters here, so
it is modelled as a plain dollar rendering. -/
def formatCurrency (q : ℚ) : String := "$" ++ toString q

/-- The `KPIs` record consumed by the dashboard (string-valued, per
`src/types`).  The source's `debtToEquityRatio` field is named
`debtToEquity` here. -/
structure KPIs where
  revenue : String
  expenses : String
  netProfit : String
  growthRate : String
  totalAssets : String
  totalLiabilities : String
  cashFlow : String
  debtToEquity : String
  returnOnInvestment : String
  profitMargin : String

/-- The `Analysis` fields the dashboard derivation reads. -/
structure Analysis where
  summary : String
  kpis : KPIs
  risks : List String
  opportunities : List String
  recommendations : List String

/-- Chart kinds of the `ChartData` type. -/
inductive ChartType where
  | bar : ChartType
  | pie : ChartType
  | area : ChartType
  | line : ChartType
deriving DecidableEq

/-- One datum of a chart: its label (`category`/`name`/`metric`), numeric
value (`none` models JavaScript `null`), optional display string, and the
optional `items` list of the risk chart. -/
structure ChartPoint where
  label : String
  value : Option ℚ
  formatted : Option String
  items : Option (List String)
deriving DecidableEq

/-- Embedding of the `ChartData` shape. -/
structure ChartData where
  type : ChartType
  title : String
  data : List ChartPoint
  xAxisKey : Option String
  yAxisKey : Option String
  dataKey : Option String
deriving DecidableEq

/-- Insight polarity. -/
inductive InsightType where
  | positive : InsightType
  | negative : InsightType
  | neutral : InsightType
deriving DecidableEq

/-- Insight importance. -/
inductive Importance where
  | high : Importance
  | medium : Importance
  | low : Importance
deriving DecidableEq

/-- Embedding of the `Insight` shape. -/
structure Insight where
  id : String
  title : String
  description : String
  type : InsightType
  importance : Importance
deriving DecidableEq

/-- JavaScript `v > 0` where `v` is a number or `null` (`null > 0` is
false). -/
def jsGtZero (v : Option ℚ) : Bool :=
  match v with
  | some q => decide (0 < q)
  | none => false

/-- The always-emitted "Financial Overview" bar chart. -/
def financialOverviewChart (a : Analysis) : ChartData :=
  { type := ChartType.bar
    title := "Financial Overview"
    data :=
      [⟨"Revenue", extractNumericValue a.kpis.revenue, some a.kpis.revenue, none⟩,
       ⟨"Expenses", extractNumericValue a.kpis.expenses, some a.kpis.expenses, none⟩,
       ⟨"Net Profit", extractNumericValue a.kpis.netProfit, some a.kpis.netProfit, none⟩]
    xAxisKey := some "category"
    yAxisKey := some "value"
    dataKey := none }

/-- The conditionally emitted "Balance Sheet Composition" pie chart
(source: the `totalAssets !== 'N/A' && totalLiabilities !== 'N/A'` guard,
then the `assetValue > 0` guard; JavaScript subtraction coerces a `null`
liability value to 0). -/
def balanceSheetCharts (a : Analysis) : List ChartData :=
  if a.kpis.totalAssets ≠ "N/A" ∧ a.kpis.totalLiabilities ≠ "N/A" then
    let assetValue := extractNumericValue a.kpis.totalAssets
    let liabilityValue := extractNumericValue a.kpis.totalLiabilities
    let equity := assetValue.getD 0 - liabilityValue.getD 0
    if jsGtZero assetValue then
      [{ type := ChartType.pie
         title := "Balance Sheet Composition"
         data :=
           [⟨"Assets", assetValue, some a.kpis.totalAssets, none⟩,
            ⟨"Liabilities", liabilityValue, some a.kpis.totalLiabilities, none⟩,
            ⟨"Equity", some (max 0 equity), some (formatCurrency equity), none⟩]
         xAxisKey := none
         yAxisKey := none
         dataKey := some "value" }]
    else []
  else []

/-- The "Performance Metrics" area chart, kept only when at least one of
the three percentage entries is numeric. -/
def performanceCharts (a : Analysis) : List ChartData :=
  let data := ([⟨"Growth Rate", extractPercentageValue a.kpis.growthRate,
                  some a.kpis.growthRate, none⟩,
                ⟨"Profit Margin", extractPercentageValue a.kpis.profitMargin,
                  some a.kpis.profitMargin, none⟩,
                ⟨"ROI", extractPercentageValue a.kpis.returnOnInvestment,
                  some a.kpis.returnOnInvestment, none⟩] : List ChartPoint).filter
      (fun pt => pt.value.isSome)
  if 0 < data.length then
    [{ type := ChartType.area
       title := "Performance Metrics"
       data := data
       xAxisKey := some "metric"
       yAxisKey := some "value"
       dataKey := none }]
  else []

/-- The always-emitted "Risk vs Opportunity Analysis" bar chart. -/
def riskOpportunityChart (a : Analysis) : ChartData :=
  { type := ChartType.bar
    title := "Risk vs Opportunity Analysis"
    data :=
      [⟨"Risks Identified", some (a.risks.length : ℚ), none, some a.risks⟩,
       ⟨"Opportunities Found", some (a.opportunities.length : ℚ), none, some a.opportunities⟩,
       ⟨"Recommendations", some (a.recommendations.length : ℚ), none, some a.recommendations⟩]
    xAxisKey := some "category"
    yAxisKey := some "value"
    dataKey := none }

/-- Embedding of `DashboardService.generateChartData`, in source push
order. -/
def generateChartData (a : Analysis) : List ChartData :=
  financialOverviewChart a ::
    (balanceSheetCharts a ++ performanceCharts a ++ [riskOpportunityChart a])

/-- The Profitability insight (emitted when the net profit KPI extracts to
a number). -/
def profInsights (a : Analysis) : List Insight :=
  match extractNumericValue a.kpis.netProfit with
  | none => []
  | some v =>
    [{ id := "profitability"
       title := "Profitability Analysis"
       description :=
         if 0 < v then
           "Company shows positive profitability with net profit of " ++ a.kpis.netProfit
         else
           "Company has negative profitability with net loss of " ++ a.kpis.netProfit
       type := if 0 < v then InsightType.positive else InsightType.negative
       importance := Importance.high }]

/-- The Growth Performance insight. -/
def growthInsights (a : Analysis) : List Insight :=
  match extractPercentageValue a.kpis.growthRate with
  | none => []
  | some g =>
    [{ id := "growth"
       title := "Growth Performance"
       description :=
         if 0 < g then
           "Strong growth trajectory with " ++ a.kpis.growthRate ++ " growth rate"
         else
           "Declining performance with " ++ a.kpis.growthRate ++ " growth rate"
       type :=
         if 5 < g then InsightType.positive
         else if g < 0 then InsightType.negative
         else InsightType.neutral
       importance := Importance.high }]

/-- The Cash Flow Status insight. -/
def cashFlowInsights (a : Analysis) : List Insight :=
  if a.kpis.cashFlow ≠ "N/A" then
    match extractNumericValue a.kpis.cashFlow with
    | none => []
    | some v =>
      [{ id := "cashflow"
         title := "Cash Flow Status"
         description :=
           if 0 < v then "Healthy cash flow from operations: " ++ a.kpis.cashFlow
           else "Negative cash flow requiring attention: " ++ a.kpis.cashFlow
         type := if 0 < v then InsightType.positive else InsightType.negative
         importance := Importance.high }]
  else []

/-- The Risk Assessment insight. -/
def riskInsights (a : Analysis) : List Insight :=
  if 0 < a.risks.length then
    [{ id := "risks"
       title := "Risk Assessment"
       description :=
         toString a.risks.length ++
           " potential risks identified that require management attention"
       type := if 3 < a.risks.length then InsightType.negative else InsightType.neutral
       importance := if 3 < a.risks.length then Importance.high else Importance.medium }]
  else []

/-- The Growth Opportunities insight. -/
def oppInsights (a : Analysis) : List Insight :=
  if 0 < a.opportunities.length then
    [{ id := "opportunities"
       title := "Growth Opportunities"
       description :=
         toString a.opportunities.length ++
           " growth opportunities identified for business expansion"
       type := InsightType.positive
       importance := Importance.medium }]
  else []

/-- The Financial Leverage insight. -/
def leverageInsights (a : Analysis) : List Insight :=
  if a.kpis.debtToEquity ≠ "N/A" then
    match extractNumericValue a.kpis.debtToEquity with
    | none => []
    | some r =>
      [{ id := "leverage"
         title := "Financial Leverage"
         description :=
           if 1 < r then
             "High leverage with debt-to-equity ratio of " ++ a.kpis.debtToEquity
           else
             "Conservative leverage with debt-to-equity ratio of " ++ a.kpis.debtToEquity
         type :=
           if (3 / 2 : ℚ) < r then InsightType.negative
           else if 1 < r then InsightType.neutral
           else InsightType.positive
         importance := if (3 / 2 : ℚ) < r then Importance.high else Importance.medium }]
  else []

/-- Embedding of `DashboardService.generateInsights`, in source push
order. -/
def generateInsights (a : Analysis) : List Insight :=
  profInsights a ++ growthInsights a ++ cashFlowInsights a ++ riskInsights a ++
    oppInsights a ++ leverageInsights a

/-- Result shape of `DashboardService.generateDashboard`. -/
structure DashboardGenerationResult where
  chartData : List ChartData
  insights : List Insight
deriving DecidableEq

/-- Embedding of `DashboardService.generateDashboard`. -/
def generateDashboard (a : Analysis) : DashboardGenerationResult :=
  { chartData := generateChartData a
    insights := generateInsights a }

/-! ## Lemmas about `parseFloat` prefix behavior -/

/-- A decimal digit is not JavaScript whitespace. -/
theorem ws_false_of_digit (c : Char) (h : c.isDigit = true) :
    jsWhitespace c = false := by
  simp [Char.isDigit] at h
  have h1 : 48 ≤ c.toNat := h.1
  have h2 : c.toNat ≤ 57 := h.2
  simp only [jsWhitespace, Bool.or_eq_false_iff, Bool.and_eq_false_iff,
    decide_eq_false_iff_not]
  omega

/-- Taking over a prefix all of whose elements satisfy the predicate. -/
theorem takeWhile_append_of_all {α : Type} (p : α → Bool) (l₁ l₂ : List α)
    (h : ∀ c ∈ l₁, p c = true) :
    (l₁ ++ l₂).takeWhile p = l₁ ++ l₂.takeWhile p := by
  induction l₁ with
  | nil => rfl
  | cons a l ih =>
    rw [List.cons_append, List.takeWhile_cons_of_pos (h a (by simp)),
      ih (fun c hc => h c (by simp [hc])), List.cons_append]

/-- `takeWhile` keeps a list all of whose elements satisfy the predicate. -/
theorem takeWhile_of_all {α : Type} (p : α → Bool) (l : List α)
    (h : ∀ c ∈ l, p c = true) : l.takeWhile p = l := by
  induction l with
  | nil => rfl
  | cons a t ih =>
    rw [List.takeWhile_cons_of_pos (h a (by simp)), ih (fun c hc => h c (by simp [hc]))]

/-- `dropWhile` exhausts a list all of whose elements satisfy the
predicate. -/
theorem dropWhile_of_all {α : Type} (p : α → Bool) (l : List α)
    (h : ∀ c ∈ l, p c = true) : l.dropWhile p = [] :=
  List.dropWhile_eq_nil_iff.mpr h

/-- `fracSplit` on input not starting with a dot finds no fraction. -/
theorem fracSplit_not_dot (rest1 : List Char)
    (h : rest1 = [] ∨ ∃ c rest, rest1 = c :: rest ∧ c ≠ '.') :
    fracSplit rest1 = ([], rest1) := by
  rcases h with rfl | ⟨c, rest, rfl, hc⟩
  · rfl
  · unfold fracSplit
    split
    · rename_i r2 heq
      injection heq with h1 _
      exact absurd h1 hc
    · rfl

/-- `expAdjust` is the identity when the remaining input does not start
with an exponent marker. -/
theorem expAdjust_not_e (base : ℚ) (rest2 : List Char)
    (h : rest2 = [] ∨ ∃ c rest, rest2 = c :: rest ∧ c ≠ 'e' ∧ c ≠ 'E') :
    expAdjust base rest2 = base := by
  rcases h with rfl | ⟨c, rest, rfl, hce, hcE⟩
  · rfl
  · unfold expAdjust
    simp only []
    rw [if_neg (not_or.mpr ⟨hce, hcE⟩)]

/-- `parseFloatBody` on digits, a dot, more digits, and non-numeric
trailing junk yields the decimal value of the digits, ignoring the junk. -/
theorem parseFloatBody_digits_frac (ds fs tail : List Char)
    (hds : ds ≠ [])
    (h1 : ∀ c ∈ ds, c.isDigit = true) (h2 : ∀ c ∈ fs, c.isDigit = true)
    (htail : tail = [] ∨
      ∃ c rest, tail = c :: rest ∧ c.isDigit = false ∧ c ≠ 'e' ∧ c ≠ 'E') :
    parseFloatBody (ds ++ '.' :: (fs ++ tail)) =
      some ((digitsVal ds : ℚ) + (digitsVal fs : ℚ) / (10 : ℚ) ^ fs.length) := by
  have hip : (ds ++ '.' :: (fs ++ tail)).takeWhile Char.isDigit = ds := by
    rw [takeWhile_append_of_all _ ds _ h1,
      List.takeWhile_cons_of_neg (p := Char.isDigit) (by decide), List.append_nil]
  have hrest1 : (ds ++ '.' :: (fs ++ tail)).dropWhile Char.isDigit
      = '.' :: (fs ++ tail) := by
    rw [dropWhile_append_of_all _ ds _ h1,
      List.dropWhile_cons_of_neg (p := Char.isDigit) (by decide)]
  have hfp : (fs ++ tail).takeWhile Char.isDigit = fs := by
    rcases htail with h | ⟨c, rest, rfl, hc, _, _⟩
    · subst h; rw [List.append_nil, takeWhile_of_all _ fs h2]
    · rw [takeWhile_append_of_all _ fs _ h2,
        List.takeWhile_cons_of_neg (by simp [hc]), List.append_nil]
  have hrest2 : (fs ++ tail).dropWhile Char.isDigit = tail := by
    rcases htail with h | ⟨c, rest, rfl, hc, _, _⟩
    · subst h; rw [List.append_nil, dropWhile_of_all _ fs h2]
    · rw [dropWhile_append_of_all _ fs _ h2,
        List.dropWhile_cons_of_neg (by simp [hc])]
  have hne : ds.isEmpty = false := by
    cases ds with
    | nil => exact absurd rfl hds
    | cons a t => rfl
  have hsplit : fracSplit ('.' :: (fs ++ tail)) = (fs, tail) := by
    unfold fracSplit
    simp only []
    rw [hfp, hrest2]
  simp only [parseFloatBody, hip, hrest1, hsplit, hne, Bool.false_and]
  rw [if_neg Bool.false_ne_true]
  rw [expAdjust_not_e _ tail (by
    rcases htail with h | ⟨c, rest, rfl, _, hce, hcE⟩
    · exact Or.inl h
    · exact Or.inr ⟨c, rest, rfl, hce, hcE⟩)]

/-- `parseFloatBody` on digits followed by non-numeric trailing junk
yields the value of the digits, ignoring the junk. -/
theorem parseFloatBody_digits (ds tail : List Char)
    (hds : ds ≠ []) (h1 : ∀ c ∈ ds, c.isDigit = true)
    (htail : tail = [] ∨
      ∃ c rest, tail = c :: rest ∧ c.isDigit = false ∧ c ≠ '.' ∧ c ≠ 'e' ∧ c ≠ 'E') :
    parseFloatBody (ds ++ tail) = some (digitsVal ds : ℚ) := by
  have hip : (ds ++ tail).takeWhile Char.isDigit = ds := by
    rcases htail with h | ⟨c, rest, rfl, hc, _, _, _⟩
    · subst h; rw [List.append_nil, takeWhile_of_all _ ds h1]
    · rw [takeWhile_append_of_all _ ds _ h1,
        List.takeWhile_cons_of_neg (by simp [hc]), List.append_nil]
  have hrest1 : (ds ++ tail).dropWhile Char.isDigit = tail := by
    rcases htail with h | ⟨c, rest, rfl, hc, _, _, _⟩
    · subst h; rw [List.append_nil, dropWhile_of_all _ ds h1]
    · rw [dropWhile_append_of_all _ ds _ h1,
        List.dropWhile_cons_of_neg (by simp [hc])]
  have hne : ds.isEmpty = false := by
    cases ds with
    | nil => exact absurd rfl hds
    | cons a t => rfl
  have hsplit : fracSplit tail = ([], tail) := by
    apply fracSplit_not_dot
    rcases htail with h | ⟨c, rest, rfl, _, hcd, _, _⟩
    · exact Or.inl h
    · exact Or.inr ⟨c, rest, rfl, hcd⟩
  simp only [parseFloatBody, hip, hrest1, hsplit, hne, Bool.false_and,
    Bool.and_false]
  rw [if_neg Bool.false_ne_true]
  rw [expAdjust_not_e _ tail (by
    rcases htail with h | ⟨c, rest, rfl, _, _, hce, hcE⟩
    · exact Or.inl h
    · exact Or.inr ⟨c, rest, rfl, hce, hcE⟩)]
  simp [digitsVal]

/-- `jsParseFloat` on digit-headed input: no whitespace to skip, no sign. -/
theorem jsParseFloat_cons_digit (d : Char) (X : List Char) (hd : d.isDigit = true) :
    jsParseFloat (d :: X) = parseFloatBody (d :: X) := by
  unfold jsParseFloat
  rw [List.dropWhile_cons_of_neg (by rw [ws_false_of_digit d hd]; exact Bool.false_ne_true)]
  split
  · rename_i r heq
    injection heq with h1 _
    rw [h1] at hd
    exact absurd hd (by decide)
  · rename_i r heq
    injection heq with h1 _
    rw [h1] at hd
    exact absurd hd (by decide)
  · rfl

/-- The fully cleaned input of `extractNumericValue`: the two `replace`
steps of the source (strip `[$,\s%]`, then strip `[()]`). -/
def cleanedNumeric (s : String) : List Char :=
  (s.data.filter
    (fun c => !(c == '$' || c == ',' || c == '%' || jsWhitespace c))).filter
    (fun c => !(c == '(' || c == ')'))

/-- C6: the numeric extraction helper maps `"$1,200,000"` to `1200000`,
`"(500)"` to `-500` (accounting negative), `"15%"` to `15`, and `"N/A"`
to `null`; in general it strips currency symbols, commas, percent signs
and whitespace, and returns `null` exactly when the input is empty or
`"N/A"` or the cleaned string has no parsable numeric prefix. -/
theorem extractNumericValue_spec :
    extractNumericValue "$1,200,000" = some 1200000 ∧
    extractNumericValue "(500)" = some (-500) ∧
    extractNumericValue "15%" = some 15 ∧
    extractNumericValue "N/A" = none ∧
    (∀ s : String, extractNumericValue s = none ↔
      (s = "" ∨ s = "N/A" ∨ jsParseFloat (cleanedNumeric s) = none)) := by
  refine ⟨by with_unfolding_all rfl, by with_unfolding_all rfl,
    by with_unfolding_all rfl, by with_unfolding_all rfl, ?_⟩
  intro s
  by_cases h0 : s = "" ∨ s = "N/A"
  · rcases h0 with rfl | rfl
    · exact iff_of_true (by with_unfolding_all rfl) (Or.inl rfl)
    · exact iff_of_true (by with_unfolding_all rfl) (Or.inr (Or.inl rfl))
  · constructor
    · intro hnone
      simp only [extractNumericValue] at hnone
      rw [if_neg h0] at hnone
      refine Or.inr (Or.inr ?_)
      cases hq : jsParseFloat (cleanedNumeric s) with
      | none => rfl
      | some q =>
        unfold cleanedNumeric at hq
        rw [hq] at hnone
        simp at hnone
    · intro hr
      rcases hr with h | h | h
      · exact absurd (Or.inl h) h0
      · exact absurd (Or.inr h) h0
      · simp only [extractNumericValue]
        rw [if_neg h0]
        unfold cleanedNumeric at h
        rw [h]

/-- C6 (witness): the general clause run on a non-numeric input. -/
theorem extractNumericValue_spec_witness :
    extractNumericValue "abc" = none :=
  (extractNumericValue_spec.2.2.2.2 "abc").mpr
    (Or.inr (Or.inr (by with_unfolding_all rfl)))

/-- An analysis whose revenue KPI carries a compact magnitude suffix. -/
def mAnalysis : Analysis :=
  { summary := ""
    kpis :=
      { revenue := "$1.2M"
        expenses := "N/A"
        netProfit := "N/A"
        growthRate := "N/A"
        totalAssets := "N/A"
        totalLiabilities := "N/A"
        cashFlow := "N/A"
        debtToEquity := "N/A"
        returnOnInvestment := "N/A"
        profitMargin := "N/A" }
    risks := []
    opportunities := []
    recommendations := [] }

/-- C10: the numeric extraction helper ignores magnitude suffixes — the
cleaned value is parsed only up to its longest numeric prefix, so
`"$1.2M"` gives `1.2` (not `1200000`), `"$3K"` gives `3`, `"2.5B"` gives
`2.5`, the under-scaled number flows into the chart values (the Financial
Overview revenue entry of an analysis with revenue `"$1.2M"` is `1.2`),
and in general a non-numeric, non-exponent character cuts parsing off
regardless of what follows it. -/
theorem magnitude_suffix_spec :
    extractNumericValue "$1.2M" = some ((6 : ℚ) / 5) ∧
    extractNumericValue "$1.2M" ≠ some (1200000 : ℚ) ∧
    extractNumericValue "$3K" = some 3 ∧
    extractNumericValue "2.5B" = some ((5 : ℚ) / 2) ∧
    (financialOverviewChart mAnalysis).data.map (fun pt => pt.value)
      = [some ((6 : ℚ) / 5), none, none] ∧
    (∀ ds fs rest : List Char, ∀ c : Char,
      ds ≠ [] → (∀ d ∈ ds, d.isDigit = true) → (∀ d ∈ fs, d.isDigit = true) →
      c.isDigit = false → c ≠ '.' → c ≠ 'e' → c ≠ 'E' →
      jsParseFloat (ds ++ '.' :: (fs ++ c :: rest)) = jsParseFloat (ds ++ '.' :: fs) ∧
      jsParseFloat (ds ++ c :: rest) = jsParseFloat ds) := by
  refine ⟨by with_unfolding_all rfl, ?_, by with_unfolding_all rfl,
    by with_unfolding_all rfl, by with_unfolding_all rfl, ?_⟩
  · intro hcontra
    have h1 : extractNumericValue "$1.2M" = some ((6 : ℚ) / 5) := by
      with_unfolding_all rfl
    rw [h1] at hcontra
    injection hcontra with hq
    norm_num at hq
  · intro ds fs rest c hds h1 h2 hc hcd hce hcE
    obtain ⟨d, ds', rfl⟩ : ∃ d ds', ds = d :: ds' := by
      cases ds with
      | nil => exact absurd rfl hds
      | cons d t => exact ⟨d, t, rfl⟩
    have hd : d.isDigit = true := h1 d (by simp)
    have htail1 : (c :: rest : List Char) = [] ∨
        ∃ c2 r2, (c :: rest : List Char) = c2 :: r2 ∧ c2.isDigit = false ∧
          c2 ≠ 'e' ∧ c2 ≠ 'E' := Or.inr ⟨c, rest, rfl, hc, hce, hcE⟩
    have htail2 : (c :: rest : List Char) = [] ∨
        ∃ c2 r2, (c :: rest : List Char) = c2 :: r2 ∧ c2.isDigit = false ∧
          c2 ≠ '.' ∧ c2 ≠ 'e' ∧ c2 ≠ 'E' := Or.inr ⟨c, rest, rfl, hc, hcd, hce, hcE⟩
    have hnil1 : (([] : List Char) = [] ∨
        ∃ c2 r2, ([] : List Char) = c2 :: r2 ∧ c2.isDigit = false ∧
          c2 ≠ 'e' ∧ c2 ≠ 'E') := Or.inl rfl
    have hnil2 : (([] : List Char) = [] ∨
        ∃ c2 r2, ([] : List Char) = c2 :: r2 ∧ c2.isDigit = false ∧
          c2 ≠ '.' ∧ c2 ≠ 'e' ∧ c2 ≠ 'E') := Or.inl rfl
    constructor
    · rw [List.cons_append, jsParseFloat_cons_digit d _ hd, ← List.cons_append,
        parseFloatBody_digits_frac (d :: ds') fs (c :: rest) hds h1 h2 htail1]
      have hrhs := parseFloatBody_digits_frac (d :: ds') fs [] hds h1 h2 hnil1
      rw [List.append_nil] at hrhs
      rw [List.cons_append, jsParseFloat_cons_digit d _ hd, ← List.cons_append, hrhs]
    · rw [List.cons_append, jsParseFloat_cons_digit d _ hd, ← List.cons_append,
        parseFloatBody_digits (d :: ds') (c :: rest) hds h1 htail2]
      have hrhs := parseFloatBody_digits (d :: ds') [] hds h1 hnil2
      rw [List.append_nil] at hrhs
      rw [jsParseFloat_cons_digit d _ hd, hrhs]

/-- C10 (witness): concrete suffix-cut runs of the general clause. -/
theorem magnitude_suffix_spec_witness :
    jsParseFloat ['1', '.', '2', 'M'] = jsParseFloat ['1', '.', '2'] ∧
    jsParseFloat ['3', 'K'] = jsParseFloat ['3'] := by
  have h1 := (magnitude_suffix_spec.2.2.2.2.2 ['1'] ['2'] [] 'M' (by decide)
      (by decide) (by decide) (by decide) (by decide) (by decide) (by decide)).1
  have h2 := (magnitude_suffix_spec.2.2.2.2.2 ['3'] [] [] 'K' (by decide)
      (by decide) (by decide) (by decide) (by decide) (by decide) (by decide)).2
  constructor
  · simpa using h1
  · simpa using h2

/-- `jsGtZero` holds exactly on positive numbers (never on `null`). -/
theorem jsGtZero_iff (v : Option ℚ) :
    jsGtZero v = true ↔ ∃ q, v = some q ∧ 0 < q := by
  cases v with
  | none => simp [jsGtZero]
  | some q => simp [jsGtZero]

/-- The pie chart the balance-sheet branch pushes, as a function of the
analysis. -/
def balanceSheetPie (a : Analysis) : ChartData :=
  { type := ChartType.pie
    title := "Balance Sheet Composition"
    data :=
      [⟨"Assets", extractNumericValue a.kpis.totalAssets, some a.kpis.totalAssets, none⟩,
       ⟨"Liabilities", extractNumericValue a.kpis.totalLiabilities,
         some a.kpis.totalLiabilities, none⟩,
       ⟨"Equity",
         some (max 0 ((extractNumericValue a.kpis.totalAssets).getD 0 -
           (extractNumericValue a.kpis.totalLiabilities).getD 0)),
         some (formatCurrency ((extractNumericValue a.kpis.totalAssets).getD 0 -
           (extractNumericValue a.kpis.totalLiabilities).getD 0)), none⟩]
    xAxisKey := none
    yAxisKey := none
    dataKey := some "value" }

/-- The balance-sheet branch emits exactly one pie chart, under its two
guards. -/
theorem balanceSheetCharts_cases (a : Analysis) :
    balanceSheetCharts a =
      if (a.kpis.totalAssets ≠ "N/A" ∧ a.kpis.totalLiabilities ≠ "N/A") ∧
         jsGtZero (extractNumericValue a.kpis.totalAssets) = true
      then [balanceSheetPie a] else [] := by
  simp only [balanceSheetCharts, balanceSheetPie]
  split_ifs <;> first | rfl | tauto

/-- Any chart in the balance-sheet segment is the pie chart. -/
theorem mem_balanceSheetCharts (a : Analysis) (c : ChartData)
    (h : c ∈ balanceSheetCharts a) :
    c = balanceSheetPie a ∧
      (a.kpis.totalAssets ≠ "N/A" ∧ a.kpis.totalLiabilities ≠ "N/A") ∧
      jsGtZero (extractNumericValue a.kpis.totalAssets) = true := by
  rw [balanceSheetCharts_cases] at h
  split at h
  · simp at h
    rename_i hcond
    exact ⟨h, hcond⟩
  · simp at h

/-- Any chart in the performance segment carries the performance title. -/
theorem mem_performanceCharts_title (a : Analysis) (c : ChartData)
    (h : c ∈ performanceCharts a) : c.title = "Performance Metrics" := by
  simp only [performanceCharts] at h
  split at h
  · simp at h
    subst h
    rfl
  · simp at h

/-- C7: the "Balance Sheet Composition" pie chart is emitted iff both
`totalAssets` and `totalLiabilities` differ from `"N/A"` and the extracted
asset value is a number strictly greater than 0; when emitted with both
sides numeric, its Equity entry's value is the extracted assets minus the
extracted liabilities, floored at zero; with `totalAssets = "N/A"` the pie
chart is never emitted, regardless of all other fields. -/
theorem balanceSheet_pie_spec (a : Analysis) :
    ((∃ c ∈ generateChartData a, c.title = "Balance Sheet Composition") ↔
      (a.kpis.totalAssets ≠ "N/A" ∧ a.kpis.totalLiabilities ≠ "N/A" ∧
        ∃ av, extractNumericValue a.kpis.totalAssets = some av ∧ 0 < av)) ∧
    (∀ av lv, extractNumericValue a.kpis.totalAssets = some av → 0 < av →
      extractNumericValue a.kpis.totalLiabilities = some lv →
      a.kpis.totalAssets ≠ "N/A" → a.kpis.totalLiabilities ≠ "N/A" →
      (generateChartData a).find? (fun c => c.title == "Balance Sheet Composition") =
        some { type := ChartType.pie
               title := "Balance Sheet Composition"
               data :=
                 [⟨"Assets", some av, some a.kpis.totalAssets, none⟩,
                  ⟨"Liabilities", some lv, some a.kpis.totalLiabilities, none⟩,
                  ⟨"Equity", some (max 0 (av - lv)),
                    some (formatCurrency (av - lv)), none⟩]
               xAxisKey := none
               yAxisKey := none
               dataKey := some "value" }) ∧
    (a.kpis.totalAssets = "N/A" →
      ∀ c ∈ generateChartData a, c.title ≠ "Balance Sheet Composition") := by
  have hiff : (∃ c ∈ generateChartData a, c.title = "Balance Sheet Composition") ↔
      (a.kpis.totalAssets ≠ "N/A" ∧ a.kpis.totalLiabilities ≠ "N/A" ∧
        ∃ av, extractNumericValue a.kpis.totalAssets = some av ∧ 0 < av) := by
    constructor
    · rintro ⟨c, hc, htitle⟩
      simp only [generateChartData, List.mem_cons, List.mem_append,
        List.mem_singleton, List.not_mem_nil, or_false] at hc
      rcases hc with rfl | (hc | hc) | rfl
      · rw [show (financialOverviewChart a).title = "Financial Overview" from rfl] at htitle
        exact absurd htitle (by decide)
      · obtain ⟨-, hguard, hgt⟩ := mem_balanceSheetCharts a c hc
        exact ⟨hguard.1, hguard.2, (jsGtZero_iff _).mp hgt⟩
      · exact absurd (mem_performanceCharts_title a c hc ▸ htitle) (by decide)
      · rw [show (riskOpportunityChart a).title = "Risk vs Opportunity Analysis"
            from rfl] at htitle
        exact absurd htitle (by decide)
    · rintro ⟨hA, hL, av, hav, hpos⟩
      refine ⟨balanceSheetPie a, ?_, rfl⟩
      simp only [generateChartData, List.mem_cons, List.mem_append]
      right
      left
      left
      rw [balanceSheetCharts_cases,
        if_pos ⟨⟨hA, hL⟩, (jsGtZero_iff _).mpr ⟨av, hav, hpos⟩⟩]
      simp
  refine ⟨hiff, ?_, ?_⟩
  · intro av lv hav hpos hlv hA hL
    have hbs : balanceSheetCharts a = [balanceSheetPie a] := by
      rw [balanceSheetCharts_cases,
        if_pos ⟨⟨hA, hL⟩, (jsGtZero_iff _).mpr ⟨av, hav, hpos⟩⟩]
    unfold generateChartData
    rw [hbs, List.singleton_append, List.cons_append]
    have hfo : ((financialOverviewChart a).title == "Balance Sheet Composition")
        = false := by with_unfolding_all rfl
    rw [List.find?_cons_of_neg _ (by rw [hfo]; exact Bool.false_ne_true),
      List.find?_cons_of_pos _ (by with_unfolding_all rfl)]
    simp only [balanceSheetPie, hav, hlv, Option.getD_some]
  · intro hna c hc htitle
    exact ((hiff.mp ⟨c, hc, htitle⟩).1) hna

/-- An analysis with numeric assets and liabilities for the pie chart. -/
def bsAnalysis : Analysis :=
  { summary := ""
    kpis :=
      { revenue := "N/A"
        expenses := "N/A"
        netProfit := "N/A"
        growthRate := "N/A"
        totalAssets := "$500"
        totalLiabilities := "$200"
        cashFlow := "N/A"
        debtToEquity := "N/A"
        returnOnInvestment := "N/A"
        profitMargin := "N/A" }
    risks := []
    opportunities := []
    recommendations := [] }

/-- C7 (witness): assets $500 and liabilities $200 produce the pie chart
with equity 300. -/
theorem balanceSheet_pie_spec_witness :
    (generateChartData bsAnalysis).find?
        (fun c => c.title == "Balance Sheet Composition") =
      some { type := ChartType.pie
             title := "Balance Sheet Composition"
             data :=
               [⟨"Assets", some 500, some "$500", none⟩,
                ⟨"Liabilities", some 200, some "$200", none⟩,
                ⟨"Equity", some (max 0 (500 - 200)),
                  some (formatCurrency (500 - 200)), none⟩]
             xAxisKey := none
             yAxisKey := none
             dataKey := some "value" } :=
  (balanceSheet_pie_spec bsAnalysis).2.1 500 200 (by with_unfolding_all rfl)
    (by norm_num) (by with_unfolding_all rfl) (by decide) (by decide)

/-- Any insight in the growth segment has id `"growth"`. -/
theorem mem_growthInsights_id (a : Analysis) (i : Insight)
    (h : i ∈ growthInsights a) : i.id = "growth" := by
  unfold growthInsights at h
  split at h
  · simp at h
  · simp at h
    subst h
    rfl

/-- Any insight in the cash-flow segment has id `"cashflow"`. -/
theorem mem_cashFlowInsights_id (a : Analysis) (i : Insight)
    (h : i ∈ cashFlowInsights a) : i.id = "cashflow" := by
  unfold cashFlowInsights at h
  split at h
  · split at h
    · simp at h
    · simp at h
      subst h
      rfl
  · simp at h

/-- Any insight in the risk segment has id `"risks"`. -/
theorem mem_riskInsights_id (a : Analysis) (i : Insight)
    (h : i ∈ riskInsights a) : i.id = "risks" := by
  unfold riskInsights at h
  split at h
  · simp at h
    subst h
    rfl
  · simp at h

/-- Any insight in the opportunity segment has id `"opportunities"`. -/
theorem mem_oppInsights_id (a : Analysis) (i : Insight)
    (h : i ∈ oppInsights a) : i.id = "opportunities" := by
  unfold oppInsights at h
  split at h
  · simp at h
    subst h
    rfl
  · simp at h

/-- Any insight in the leverage segment has id `"leverage"`. -/
theorem mem_leverageInsights_id (a : Analysis) (i : Insight)
    (h : i ∈ leverageInsights a) : i.id = "leverage" := by
  unfold leverageInsights at h
  split at h
  · split at h
    · simp at h
    · simp at h
      subst h
      rfl
  · simp at h

/-- C8: the Profitability insight is emitted iff the net profit KPI
extracts to a number; when emitted it is the first insight found under id
`"profitability"`, with type `positive` exactly when the value exceeds 0
and `negative` otherwise, and importance always `high`. -/
theorem profitability_insight_spec (a : Analysis) :
    (extractNumericValue a.kpis.netProfit = none →
      (generateInsights a).find? (fun i => i.id == "profitability") = none) ∧
    (∀ v, extractNumericValue a.kpis.netProfit = some v →
      (generateInsights a).find? (fun i => i.id == "profitability") =
        some { id := "profitability"
               title := "Profitability Analysis"
               description :=
                 if 0 < v then
                   "Company shows positive profitability with net profit of " ++
                     a.kpis.netProfit
                 else
                   "Company has negative profitability with net loss of " ++
                     a.kpis.netProfit
               type := if 0 < v then InsightType.positive else InsightType.negative
               importance := Importance.high }) := by
  constructor
  · intro h
    rw [List.find?_eq_none]
    intro i hi
    simp only [generateInsights, List.mem_append] at hi
    rcases hi with ((((hi | hi) | hi) | hi) | hi) | hi
    · have hpn : profInsights a = [] := by
        unfold profInsights
        rw [h]
      rw [hpn] at hi
      simp at hi
    · rw [show (i.id == "profitability") = false from by
        rw [mem_growthInsights_id a i hi]; decide]
      exact Bool.false_ne_true
    · rw [show (i.id == "profitability") = false from by
        rw [mem_cashFlowInsights_id a i hi]; decide]
      exact Bool.false_ne_true
    · rw [show (i.id == "profitability") = false from by
        rw [mem_riskInsights_id a i hi]; decide]
      exact Bool.false_ne_true
    · rw [show (i.id == "profitability") = false from by
        rw [mem_oppInsights_id a i hi]; decide]
      exact Bool.false_ne_true
    · rw [show (i.id == "profitability") = false from by
        rw [mem_leverageInsights_id a i hi]; decide]
      exact Bool.false_ne_true
  · intro v hv
    have hps : profInsights a =
        [{ id := "profitability"
           title := "Profitability Analysis"
           description :=
             if 0 < v then
               "Company shows positive profitability with net profit of " ++
                 a.kpis.netProfit
             else
               "Company has negative profitability with net loss of " ++
                 a.kpis.netProfit
           type := if 0 < v then InsightType.positive else InsightType.negative
           importance := Importance.high }] := by
      unfold profInsights
      rw [hv]
    unfold generateInsights
    rw [hps]
    simp only [List.append_assoc, List.singleton_append]
    have hpos : (fun (i : Insight) => i.id == "profitability")
        ({ id := "profitability"
           title := "Profitability Analysis"
           description :=
             if 0 < v then
               "Company shows positive profitability with net profit of " ++
                 a.kpis.netProfit
             else
               "Company has negative profitability with net loss of " ++
                 a.kpis.netProfit
           type := if 0 < v then InsightType.positive else InsightType.negative
           importance := Importance.high } : Insight) = true := rfl
    exact List.find?_cons_of_pos _ hpos

/-- Analysis with positive net profit. -/
def npPosAnalysis : Analysis :=
  { summary := ""
    kpis :=
      { revenue := "N/A"
        expenses := "N/A"
        netProfit := "$400,000"
        growthRate := "N/A"
        totalAssets := "N/A"
        totalLiabilities := "N/A"
        cashFlow := "N/A"
        debtToEquity := "N/A"
        returnOnInvestment := "N/A"
        profitMargin := "N/A" }
    risks := []
    opportunities := []
    recommendations := [] }

/-- Analysis with an accounting-negative net profit. -/
def npNegAnalysis : Analysis :=
  { summary := ""
    kpis :=
      { revenue := "N/A"
        expenses := "N/A"
        netProfit := "($100)"
        growthRate := "N/A"
        totalAssets := "N/A"
        totalLiabilities := "N/A"
        cashFlow := "N/A"
        debtToEquity := "N/A"
        returnOnInvestment := "N/A"
        profitMargin := "N/A" }
    risks := []
    opportunities := []
    recommendations := [] }

/-- C8 (witness): `"$400,000"` yields a positive high-importance
Profitability insight, `"($100)"` a negative one, and `"N/A"` none. -/
theorem profitability_insight_spec_witness :
    ((generateInsights npPosAnalysis).find? (fun i => i.id == "profitability")).map
        (fun i => (i.type, i.importance))
      = some (InsightType.positive, Importance.high) ∧
    ((generateInsights npNegAnalysis).find? (fun i => i.id == "profitability")).map
        (fun i => (i.type, i.importance))
      = some (InsightType.negative, Importance.high) ∧
    (generateInsights bsAnalysis).find? (fun i => i.id == "profitability") = none := by
  refine ⟨?_, ?_, ?_⟩
  · have h := (profitability_insight_spec npPosAnalysis).2 400000
      (by with_unfolding_all rfl)
    rw [h]
    rw [if_pos (by norm_num : (0 : ℚ) < 400000), if_pos (by norm_num : (0 : ℚ) < 400000)]
    rfl
  · have h := (profitability_insight_spec npNegAnalysis).2 (-100)
      (by with_unfolding_all rfl)
    rw [h]
    rw [if_neg (by norm_num : ¬ (0 : ℚ) < -100), if_neg (by norm_num : ¬ (0 : ℚ) < -100)]
    rfl
  · exact (profitability_insight_spec bsAnalysis).1 (by with_unfolding_all rfl)

/-- C9: `generateDashboard` is a pure total function of its argument —
equal analyses produce structurally identical `{chartData, insights}`
results; the embedding has no state, so determinism holds by
construction. -/
theorem generateDashboard_deterministic (a b : Analysis) (h : a = b) :
    generateDashboard a = generateDashboard b := by
  rw [h]

/-- C9 (witness): two invocations on the same concrete analysis agree. -/
theorem generateDashboard_deterministic_witness :
    generateDashboard bsAnalysis = generateDashboard bsAnalysis :=
  generateDashboard_deterministic bsAnalysis bsAnalysis rfl
